import Mathlib

/-!
Shallow embedding of the Vibehoot game-session engine
(`src/lib/game-engine.ts`) in Lean 4.

The engine stores one JSON `GameState` per join code in Redis and mutates
it through static methods on `GameEngine`.  We model the stored value at a
single join code as `Option GameState` (absent key = `none`), JavaScript
`Record<string, T>` objects as association lists in insertion order,
numbers as `ℤ` (timestamps, indices, scores) and the score computation,
which JavaScript performs on floats, over `ℚ` with `round x = ⌊x + 1/2⌋`
matching `Math.round`.  Each TypeScript method that can `throw` becomes an
`Except String` value: an `error` result corresponds to a thrown exception,
which in the source always happens before any `redis.set`, so an `error`
carries no new state and the stored value is unchanged.  The quiz catalog
(`getQuizQuestions`, read from Prisma, ordered ascending by `order` and
immutable during a game) is a fixed parameter `qs : List Question`.
-/

namespace Vibehoot

/-- Session status values, from the union type in `game-engine.ts`. -/
inductive Status where
  | WAITING
  | ACTIVE
  | SHOWING_QUESTION
  | SHOWING_RESULTS
  | ENDED
deriving DecidableEq, Repr

/-- A joined player: `interface Player` in `game-engine.ts`. -/
structure Player where
  id : String
  nickname : String
  score : ℤ
deriving DecidableEq, Repr

/-- A recorded answer for the current question: `interface Answer`. -/
structure Answer where
  playerId : String
  optionIndex : ℤ
  responseTimeMs : ℤ
deriving DecidableEq, Repr

/-- A quiz question as returned by `getQuizQuestions`. -/
structure Question where
  id : String
  text : String
  options : List String
  correctOptionIndex : ℤ
  timeLimit : ℤ
  order : ℤ
deriving DecidableEq, Repr

/-- The per-join-code session state: `interface GameState`.  The two
`Record<string, _>` maps are association lists in insertion order; both are
keyed by player id (`joinSession` stores `players[playerId].id = playerId`,
`submitAnswer` stores `answers[playerId].playerId = playerId`). -/
structure GameState where
  sessionId : String
  quizId : String
  hostId : String
  status : Status
  currentQuestionIndex : ℤ
  players : List Player
  answers : List Answer
  questionStartTime : Option ℤ
  startTime : Option ℤ
deriving DecidableEq, Repr

/-- JavaScript array indexing `questions[i]`: `undefined` (here `none`) for a
negative index or an index at or past the length. -/
def getQ (qs : List Question) (i : ℤ) : Option Question :=
  if 0 ≤ i then qs.get? i.toNat else none

/-- Lookup `players[playerId]` in the association-list model. -/
def findPlayer (ps : List Player) (playerId : String) : Option Player :=
  ps.find? (fun p => p.id == playerId)

/-- Lookup `answers[playerId]` in the association-list model. -/
def findAnswer (answers : List Answer) (playerId : String) : Option Answer :=
  answers.find? (fun a => a.playerId == playerId)

/-- The object assignment `state.players[playerId] = {id, nickname, score: 0}`:
replaces the entry in place when the key exists, appends otherwise. -/
def upsertPlayer (ps : List Player) (playerId nickname : String) : List Player :=
  if (findPlayer ps playerId).isSome then
    ps.map (fun p => if p.id == playerId then ⟨playerId, nickname, 0⟩ else p)
  else ps ++ [⟨playerId, nickname, 0⟩]

/-- The guarded score update in `submitAnswer`:
`if (state.players[playerId]) state.players[playerId].score += points`. -/
def creditPlayer (ps : List Player) (playerId : String) (points : ℤ) : List Player :=
  if (findPlayer ps playerId).isSome then
    ps.map (fun p => if p.id == playerId then { p with score := p.score + points } else p)
  else ps

/-- The score computation in `submitAnswer`, lines 244-249:
`points = 0`; if correct, `timeBonus = Math.max(0, 1 - responseTimeMs /
(timeLimit * 1000))` and `points = Math.round(1000 + timeBonus * 500)`. -/
def computePoints (correct : Bool) (responseTimeMs timeLimit : ℤ) : ℤ :=
  if correct then
    let timeBonus : ℚ := max 0 (1 - (responseTimeMs : ℚ) / ((timeLimit : ℚ) * 1000))
    round ((1000 : ℚ) + timeBonus * 500)
  else 0

/-- The fresh `GameState` written by `createSession`. -/
def initialState (sessionId quizId hostId : String) : GameState :=
  { sessionId := sessionId
    quizId := quizId
    hostId := hostId
    status := .WAITING
    currentQuestionIndex := -1
    players := []
    answers := []
    questionStartTime := none
    startTime := none }

/-- `GameEngine.joinSession`: throws "Session not found" when the key is
absent, "Game already started" when `status !== 'WAITING'`; otherwise upserts
the player with score 0 and persists. -/
def joinSession (st : Option GameState) (nickname playerId : String) :
    Except String GameState :=
  match st with
  | none => .error "Session not found"
  | some state =>
    if state.status ≠ Status.WAITING then .error "Game already started"
    else .ok { state with players := upsertPlayer state.players playerId nickname }

/-- `GameEngine.startGame`: returns `null` when the key is absent; otherwise
unconditionally sets `status = 'ACTIVE'`, `startTime = Date.now()`,
`currentQuestionIndex = -1` and persists (no phase check). -/
def startGame (st : Option GameState) (now : ℤ) : Option GameState :=
  st.map fun state =>
    { state with status := .ACTIVE, startTime := some now, currentQuestionIndex := -1 }

/-- `GameEngine.nextQuestion`: throws "Session not found" when absent; else
increments `currentQuestionIndex`, clears `answers`, sets
`questionStartTime = Date.now()` and `status = 'SHOWING_QUESTION'`, then
overrides `status = 'ENDED'` when `questions[currentQuestionIndex]` is
`undefined`; persists and returns the question (or `null`) with
`questions.length`. -/
def nextQuestion (qs : List Question) (st : Option GameState) (now : ℤ) :
    Except String (GameState × Option Question × ℕ) :=
  match st with
  | none => .error "Session not found"
  | some state =>
    let idx := state.currentQuestionIndex + 1
    let question := getQ qs idx
    let state' : GameState :=
      { state with
        currentQuestionIndex := idx
        answers := []
        questionStartTime := some now
        status := if question.isSome then .SHOWING_QUESTION else .ENDED }
    .ok (state', question, qs.length)

/-- `GameEngine.submitAnswer`, lines 231-264: the three guards in source
order, then `responseTimeMs = Date.now() - (state.questionStartTime ||
Date.now())`, the score computation, the answer record, the guarded score
credit, and one persist.  Result is `{correct, score}`. -/
def submitAnswer (qs : List Question) (st : Option GameState) (playerId : String)
    (optionIndex now : ℤ) : Except String (GameState × Bool × ℤ) :=
  match st with
  | none => .error "Session not found"
  | some state =>
    if state.status ≠ Status.SHOWING_QUESTION then .error "Not accepting answers"
    else if (findAnswer state.answers playerId).isSome then .error "Already answered"
    else
      match getQ qs state.currentQuestionIndex with
      | none => .error "No current question"
      | some question =>
        let responseTimeMs := now - (state.questionStartTime.getD now)
        let correct := optionIndex == question.correctOptionIndex
        let points := computePoints correct responseTimeMs question.timeLimit
        let state' : GameState :=
          { state with
            answers := state.answers ++ [⟨playerId, optionIndex, responseTimeMs⟩]
            players := creditPlayer state.players playerId points }
        .ok (state', correct, points)

/-- The distribution computed by `showResults`: a `[0, 0, 0, 0]` array where
each answer with `0 <= optionIndex < 4` increments its bucket — i.e. bucket
`i` holds the number of recorded answers with `optionIndex == i`. -/
def distributionOf (answers : List Answer) : List ℕ :=
  [answers.countP (fun a => a.optionIndex == 0),
   answers.countP (fun a => a.optionIndex == 1),
   answers.countP (fun a => a.optionIndex == 2),
   answers.countP (fun a => a.optionIndex == 3)]

/-- `GameEngine.showResults`: throws "Session not found" when absent, "No
current question" when `questions[currentQuestionIndex]` is `undefined`
(both before any persist); otherwise sets `status = 'SHOWING_RESULTS'`,
persists, and returns the correct option, the 4-bucket distribution and the
count of answers matching `correctOptionIndex`. -/
def showResults (qs : List Question) (st : Option GameState) :
    Except String (GameState × ℤ × List ℕ × ℕ) :=
  match st with
  | none => .error "Session not found"
  | some state =>
    match getQ qs state.currentQuestionIndex with
    | none => .error "No current question"
    | some question =>
      let state' : GameState := { state with status := .SHOWING_RESULTS }
      let correctCount := state.answers.countP
        (fun a => a.optionIndex == question.correctOptionIndex)
      .ok (state', question.correctOptionIndex, distributionOf state.answers, correctCount)

/-- The sort in `getLeaderboard`: `.sort((a, b) => b.score - a.score)`,
i.e. by score descending. -/
def sortByScoreDesc (ps : List Player) : List Player :=
  ps.mergeSort (fun a b => decide (b.score ≤ a.score))

/-- `GameEngine.getLeaderboard`: empty list when absent; otherwise the
players sorted by score descending, truncated with `.slice(0, 10)`. -/
def getLeaderboard (st : Option GameState) : List Player :=
  match st with
  | none => []
  | some state => (sortByScoreDesc state.players).take 10

/-- `GameEngine.endGame`: no-op when absent; otherwise force-sets
`status = 'ENDED'` and persists. -/
def endGame (st : Option GameState) : Option GameState :=
  st.map fun state => { state with status := .ENDED }

/-- One mutating Engine operation that succeeded and persisted a new state
for the join code.  Failed operations throw before `redis.set`, leaving the
stored value unchanged, so they induce no step. -/
inductive Step (qs : List Question) : GameState → GameState → Prop
  | join (s s' : GameState) (nickname playerId : String)
      (h : joinSession (some s) nickname playerId = .ok s') : Step qs s s'
  | start (s s' : GameState) (now : ℤ)
      (h : startGame (some s) now = some s') : Step qs s s'
  | next (s s' : GameState) (now : ℤ) (q : Option Question) (n : ℕ)
      (h : nextQuestion qs (some s) now = .ok (s', q, n)) : Step qs s s'
  | submit (s s' : GameState) (playerId : String) (optionIndex now : ℤ)
      (c : Bool) (pts : ℤ)
      (h : submitAnswer qs (some s) playerId optionIndex now = .ok (s', c, pts)) :
      Step qs s s'
  | results (s s' : GameState) (c : ℤ) (d : List ℕ) (k : ℕ)
      (h : showResults qs (some s) = .ok (s', c, d, k)) : Step qs s s'
  | finish (s s' : GameState) (h : endGame (some s) = some s') : Step qs s s'

/-- States reachable from a freshly created session by any sequence of
Engine operations over the fixed question list `qs`. -/
def Reachable (qs : List Question) (sessionId quizId hostId : String)
    (s : GameState) : Prop :=
  Relation.ReflTransGen (Step qs) (initialState sessionId quizId hostId) s

end Vibehoot

namespace Vibehoot

/-! Helper lemmas about the score computation. -/

theorem round_mono_rat {x y : ℚ} (h : x ≤ y) : round x ≤ round y := by
  rw [round_eq, round_eq]
  exact Int.floor_le_floor (by linarith)

theorem computePoints_false (rt tl : ℤ) : computePoints false rt tl = 0 := rfl

theorem computePoints_true_eq (rt tl : ℤ) :
    computePoints true rt tl =
      round ((1000 : ℚ) + max 0 (1 - (rt : ℚ) / ((tl : ℚ) * 1000)) * 500) := rfl

theorem computePoints_true_lower (rt tl : ℤ) : 1000 ≤ computePoints true rt tl := by
  rw [computePoints_true_eq]
  have hb : (0 : ℚ) ≤ max 0 (1 - (rt : ℚ) / ((tl : ℚ) * 1000)) := le_max_left 0 _
  have h1000 : round ((1000 : ℚ)) = 1000 := by norm_num
  have h := round_mono_rat
    (show (1000 : ℚ) ≤ 1000 + max 0 (1 - (rt : ℚ) / ((tl : ℚ) * 1000)) * 500 by nlinarith)
  omega

theorem computePoints_nonneg (c : Bool) (rt tl : ℤ) : 0 ≤ computePoints c rt tl := by
  cases c with
  | false => simp [computePoints]
  | true => have := computePoints_true_lower rt tl; omega

theorem computePoints_true_upper (rt tl : ℤ) (hrt : 0 ≤ rt) (htl : 1 ≤ tl) :
    computePoints true rt tl ≤ 1500 := by
  rw [computePoints_true_eq]
  have hpos : (0 : ℚ) < (tl : ℚ) * 1000 := by
    have h1 : (1 : ℚ) ≤ (tl : ℚ) := by exact_mod_cast htl
    nlinarith
  have hq : (0 : ℚ) ≤ (rt : ℚ) / ((tl : ℚ) * 1000) :=
    div_nonneg (by exact_mod_cast hrt) (le_of_lt hpos)
  have ht1 : max 0 (1 - (rt : ℚ) / ((tl : ℚ) * 1000)) ≤ 1 :=
    max_le (by norm_num) (by linarith)
  have h1500 : round ((1500 : ℚ)) = 1500 := by norm_num
  have h := round_mono_rat
    (show (1000 : ℚ) + max 0 (1 - (rt : ℚ) / ((tl : ℚ) * 1000)) * 500 ≤ 1500 by nlinarith)
  omega

theorem computePoints_instant (tl : ℤ) : computePoints true 0 tl = 1500 := by
  rw [computePoints_true_eq]
  norm_num

theorem computePoints_late (rt tl : ℤ) (htl : 1 ≤ tl) (hlate : tl * 1000 ≤ rt) :
    computePoints true rt tl = 1000 := by
  rw [computePoints_true_eq]
  have hpos : (0 : ℚ) < (tl : ℚ) * 1000 := by
    have h1 : (1 : ℚ) ≤ (tl : ℚ) := by exact_mod_cast htl
    nlinarith
  have hge : (1 : ℚ) ≤ (rt : ℚ) / ((tl : ℚ) * 1000) := by
    rw [le_div_iff₀ hpos]
    have h2 : ((tl * 1000 : ℤ) : ℚ) ≤ (rt : ℚ) := by exact_mod_cast hlate
    push_cast at h2
    linarith
  have hmax : max 0 (1 - (rt : ℚ) / ((tl : ℚ) * 1000)) = 0 :=
    max_eq_left (by linarith)
  rw [hmax]
  norm_num

end Vibehoot

namespace Vibehoot

/-! Helper lemmas about question indexing and the association-list maps. -/

theorem getQ_eq_of_nonneg (qs : List Question) (i : ℤ) (h0 : 0 ≤ i) :
    getQ qs i = qs.get? i.toNat := if_pos h0

theorem getQ_eq_none_of_length_le (qs : List Question) (i : ℤ)
    (h : (qs.length : ℤ) ≤ i) : getQ qs i = none := by
  unfold getQ
  split
  · exact List.get?_len_le (by omega)
  · rfl

theorem getQ_isSome_of_lt (qs : List Question) (i : ℤ) (h0 : 0 ≤ i)
    (h : i < (qs.length : ℤ)) : (getQ qs i).isSome := by
  rw [getQ_eq_of_nonneg qs i h0]
  cases hg : qs.get? i.toNat with
  | none => rw [List.get?_eq_none] at hg; omega
  | some q => rfl

theorem getQ_some_bounds {qs : List Question} {i : ℤ} {q : Question}
    (h : getQ qs i = some q) : 0 ≤ i ∧ i < (qs.length : ℤ) := by
  unfold getQ at h
  split at h
  · rename_i h0
    rcases List.get?_eq_some.mp h with ⟨hlt, _⟩
    exact ⟨h0, by omega⟩
  · cases h

theorem findPlayer_id {ps : List Player} {pid : String} {p : Player}
    (h : findPlayer ps pid = some p) : p.id = pid := by
  have := List.find?_some h
  simpa using this

theorem findAnswer_id {answers : List Answer} {pid : String} {a : Answer}
    (h : findAnswer answers pid = some a) : a.playerId = pid := by
  have := List.find?_some h
  simpa using this

theorem findAnswer_append_self {answers : List Answer} {pid : String}
    (h : findAnswer answers pid = none) (oi rt : ℤ) :
    findAnswer (answers ++ [⟨pid, oi, rt⟩]) pid = some ⟨pid, oi, rt⟩ := by
  unfold findAnswer at *
  rw [List.find?_append, h]
  simp [List.find?]

theorem findAnswer_append_other {answers : List Answer} (a : Answer) {pid' : String}
    (h : a.playerId ≠ pid') :
    findAnswer (answers ++ [a]) pid' = findAnswer answers pid' := by
  unfold findAnswer
  rw [List.find?_append]
  cases hfind : List.find? (fun x => x.playerId == pid') answers with
  | none =>
    have hb : (a.playerId == pid') = false := beq_eq_false_iff_ne.mpr h
    simp [List.find?, hb]
  | some b => simp

theorem findPlayer_map_preserve {ps : List Player} {f : Player → Player}
    (hid : ∀ p, (f p).id = p.id) (pid : String) :
    findPlayer (ps.map f) pid = (findPlayer ps pid).map f := by
  unfold findPlayer
  rw [List.find?_map]
  have hpred : ((fun p : Player => p.id == pid) ∘ f) = (fun p : Player => p.id == pid) := by
    funext p
    simp [Function.comp, hid]
  rw [hpred]

theorem findPlayer_credit (ps : List Player) (pid : String) (pts : ℤ) (pid' : String) :
    findPlayer (creditPlayer ps pid pts) pid' =
      (findPlayer ps pid').map
        (fun p => if p.id == pid then { p with score := p.score + pts } else p) := by
  unfold creditPlayer
  split
  · exact findPlayer_map_preserve
      (fun p => by by_cases h : p.id = pid <;> simp [h]) pid'
  · rename_i hnone
    cases hfind : findPlayer ps pid' with
    | none => simp
    | some p =>
      have hid := findPlayer_id hfind
      have hne : p.id ≠ pid := by
        intro hcontra
        rw [hid] at hcontra
        subst hcontra
        rw [hfind] at hnone
        simp at hnone
      simp [hne]

theorem findPlayer_upsert_self (ps : List Player) (pid nickname : String) :
    findPlayer (upsertPlayer ps pid nickname) pid = some ⟨pid, nickname, 0⟩ := by
  unfold upsertPlayer
  split
  · rename_i hsome
    rw [findPlayer_map_preserve (fun p => by by_cases h : p.id = pid <;> simp [h]) pid]
    cases hfind : findPlayer ps pid with
    | none => rw [hfind] at hsome; simp at hsome
    | some p =>
      have hid := findPlayer_id hfind
      simp [hid]
  · rename_i hnone
    unfold findPlayer at *
    rw [List.find?_append]
    cases hfind : List.find? (fun p : Player => p.id == pid) ps with
    | none => simp [List.find?]
    | some p => rw [hfind] at hnone; simp at hnone

theorem findPlayer_upsert_other (ps : List Player) (pid nickname pid' : String)
    (h : pid' ≠ pid) :
    findPlayer (upsertPlayer ps pid nickname) pid' = findPlayer ps pid' := by
  unfold upsertPlayer
  split
  · rw [findPlayer_map_preserve (fun p => by by_cases hp : p.id = pid <;> simp [hp]) pid']
    cases hfind : findPlayer ps pid' with
    | none => simp
    | some p =>
      have hid := findPlayer_id hfind
      have hne : p.id ≠ pid := by rw [hid]; exact h
      simp [hne]
  · unfold findPlayer
    rw [List.find?_append]
    cases hfind : List.find? (fun p : Player => p.id == pid') ps with
    | none =>
      have hb : (pid == pid') = false := beq_eq_false_iff_ne.mpr (Ne.symm h)
      simp [List.find?, hb]
    | some p => simp

theorem upsert_scores_zero {ps : List Player} (h : ∀ p ∈ ps, p.score = 0)
    (pid nickname : String) :
    ∀ p' ∈ upsertPlayer ps pid nickname, p'.score = 0 := by
  unfold upsertPlayer
  split
  · intro p' hp'
    rcases List.mem_map.mp hp' with ⟨p, hp, rfl⟩
    by_cases hid : p.id = pid <;> simp [hid, h p hp]
  · intro p' hp'
    rcases List.mem_append.mp hp' with hp | hp
    · exact h p' hp
    · simp at hp; subst hp; rfl

end Vibehoot

namespace Vibehoot

/-! Characterization lemmas for the Engine operations. -/

/-- The state `nextQuestion` persists for a present session. -/
def nextQuestionState (qs : List Question) (now : ℤ) (s : GameState) : GameState :=
  { s with
    currentQuestionIndex := s.currentQuestionIndex + 1
    answers := []
    questionStartTime := some now
    status := if (getQ qs (s.currentQuestionIndex + 1)).isSome
      then Status.SHOWING_QUESTION else Status.ENDED }

theorem nextQuestion_some_eq (qs : List Question) (s : GameState) (now : ℤ) :
    nextQuestion qs (some s) now =
      .ok (nextQuestionState qs now s, getQ qs (s.currentQuestionIndex + 1), qs.length) := rfl

theorem startGame_some_eq (s : GameState) (now : ℤ) :
    startGame (some s) now =
      some { s with status := Status.ACTIVE, startTime := some now,
                    currentQuestionIndex := -1 } := rfl

theorem endGame_some_eq (s : GameState) :
    endGame (some s) = some { s with status := Status.ENDED } := rfl

theorem joinSession_ok_eq {s : GameState} (nickname playerId : String)
    (hstatus : s.status = Status.WAITING) :
    joinSession (some s) nickname playerId =
      .ok { s with players := upsertPlayer s.players playerId nickname } := by
  simp [joinSession, hstatus]

theorem joinSession_err_of_not_waiting {s : GameState} (nickname playerId : String)
    (hstatus : s.status ≠ Status.WAITING) :
    joinSession (some s) nickname playerId = .error "Game already started" := by
  simp [joinSession, hstatus]

theorem joinSession_ok_inv {st : Option GameState} {nickname playerId : String}
    {s' : GameState} (h : joinSession st nickname playerId = .ok s') :
    ∃ s, st = some s ∧ s.status = Status.WAITING ∧
      s' = { s with players := upsertPlayer s.players playerId nickname } := by
  cases st with
  | none => simp [joinSession] at h
  | some s =>
    simp only [joinSession] at h
    split at h
    · cases h
    · rename_i hst
      simp only [Except.ok.injEq] at h
      exact ⟨s, rfl, by simpa using hst, h.symm⟩

theorem submitAnswer_ok_eq {qs : List Question} {s : GameState} {q : Question}
    (pid : String) (oi now : ℤ)
    (hstatus : s.status = Status.SHOWING_QUESTION)
    (hnot : findAnswer s.answers pid = none)
    (hq : getQ qs s.currentQuestionIndex = some q) :
    submitAnswer qs (some s) pid oi now =
      .ok ({ s with
              answers := s.answers ++ [⟨pid, oi, now - s.questionStartTime.getD now⟩]
              players := creditPlayer s.players pid
                (computePoints (oi == q.correctOptionIndex)
                  (now - s.questionStartTime.getD now) q.timeLimit) },
           oi == q.correctOptionIndex,
           computePoints (oi == q.correctOptionIndex)
             (now - s.questionStartTime.getD now) q.timeLimit) := by
  simp [submitAnswer, hstatus, hnot, hq]

theorem submitAnswer_ok_inv {qs : List Question} {st : Option GameState}
    {pid : String} {oi now : ℤ} {s' : GameState} {c : Bool} {pts : ℤ}
    (h : submitAnswer qs st pid oi now = .ok (s', c, pts)) :
    ∃ s, st = some s ∧ s.status = Status.SHOWING_QUESTION ∧
      findAnswer s.answers pid = none ∧
      ∃ q, getQ qs s.currentQuestionIndex = some q ∧
        c = (oi == q.correctOptionIndex) ∧
        pts = computePoints c (now - s.questionStartTime.getD now) q.timeLimit ∧
        s' = { s with
          answers := s.answers ++ [⟨pid, oi, now - s.questionStartTime.getD now⟩]
          players := creditPlayer s.players pid pts } := by
  cases st with
  | none => simp [submitAnswer] at h
  | some s =>
    simp only [submitAnswer] at h
    split at h
    · cases h
    · split at h
      · cases h
      · rename_i hstatus hnot
        cases hq : getQ qs s.currentQuestionIndex with
        | none => rw [hq] at h; cases h
        | some q =>
          rw [hq] at h
          simp only [Except.ok.injEq, Prod.mk.injEq] at h
          obtain ⟨hs', hc, hpts⟩ := h
          refine ⟨s, rfl, by simpa using hstatus, by simpa using hnot, q, hq, hc.symm, ?_, ?_⟩
          · rw [← hc, hpts]
          · rw [← hs', hpts]

theorem showResults_ok_eq {qs : List Question} {s : GameState} {q : Question}
    (hq : getQ qs s.currentQuestionIndex = some q) :
    showResults qs (some s) =
      .ok ({ s with status := Status.SHOWING_RESULTS },
           q.correctOptionIndex,
           distributionOf s.answers,
           s.answers.countP (fun a => a.optionIndex == q.correctOptionIndex)) := by
  simp [showResults, hq]

theorem showResults_ok_inv {qs : List Question} {st : Option GameState}
    {s' : GameState} {ci : ℤ} {d : List ℕ} {k : ℕ}
    (h : showResults qs st = .ok (s', ci, d, k)) :
    ∃ s, st = some s ∧ ∃ q, getQ qs s.currentQuestionIndex = some q ∧
      s' = { s with status := Status.SHOWING_RESULTS } ∧
      ci = q.correctOptionIndex ∧ d = distributionOf s.answers ∧
      k = s.answers.countP (fun a => a.optionIndex == q.correctOptionIndex) := by
  cases st with
  | none => simp [showResults] at h
  | some s =>
    simp only [showResults] at h
    cases hq : getQ qs s.currentQuestionIndex with
    | none => rw [hq] at h; cases h
    | some q =>
      rw [hq] at h
      simp only [Except.ok.injEq, Prod.mk.injEq] at h
      obtain ⟨hs', hci, hd, hk⟩ := h
      exact ⟨s, rfl, q, hq, hs'.symm, hci.symm, hd.symm, hk.symm⟩

end Vibehoot

namespace Vibehoot

/-! Concrete sessions used to instantiate theorems with hypotheses. -/

/-- A four-option question with correct option 1 and a 20-second limit. -/
def demoQ : Question :=
  { id := "q1", text := "2 plus 2", options := ["3", "4", "5", "6"],
    correctOptionIndex := 1, timeLimit := 20, order := 0 }

/-- A session showing `demoQ` (question index 0) with one player and no
answers yet. -/
def demoShowing : GameState :=
  { sessionId := "sess", quizId := "quiz", hostId := "host",
    status := .SHOWING_QUESTION, currentQuestionIndex := 0,
    players := [⟨"P1", "Alice", 0⟩],
    answers := [], questionStartTime := some 0, startTime := some 0 }

/-- The same session after `P1` has answered. -/
def demoAnswered : GameState := { demoShowing with answers := [⟨"P1", 1, 100⟩] }

/-- C1: a successful `submitAnswer` call returns score
`round(1000 + max(0, 1 - responseTimeMs / (timeLimit * 1000)) * 500)` for a
correct option, which lies in `[1000, 1500]`, equals `1500 ∈ [1400, 1500]`
at `responseTimeMs = 0` and exactly `1000` once
`responseTimeMs ≥ timeLimit * 1000`; an incorrect option scores `0`. -/
theorem C1_submitAnswer_scoring (qs : List Question) (s : GameState)
    (pid : String) (oi now : ℤ) (q : Question)
    (hstatus : s.status = Status.SHOWING_QUESTION)
    (hnot : findAnswer s.answers pid = none)
    (hq : getQ qs s.currentQuestionIndex = some q)
    (htl : 1 ≤ q.timeLimit)
    (hrt : 0 ≤ now - s.questionStartTime.getD now) :
    ∃ s' score,
      submitAnswer qs (some s) pid oi now = .ok (s', oi == q.correctOptionIndex, score) ∧
      (oi = q.correctOptionIndex →
        score = round ((1000 : ℚ) +
          max 0 (1 - ((now - s.questionStartTime.getD now : ℤ) : ℚ) /
            ((q.timeLimit : ℚ) * 1000)) * 500) ∧
        1000 ≤ score ∧ score ≤ 1500 ∧
        (now - s.questionStartTime.getD now = 0 → 1400 ≤ score ∧ score ≤ 1500) ∧
        (q.timeLimit * 1000 ≤ now - s.questionStartTime.getD now → score = 1000)) ∧
      (oi ≠ q.correctOptionIndex → score = 0) := by
  refine ⟨_, _, submitAnswer_ok_eq pid oi now hstatus hnot hq, ?_, ?_⟩
  · intro hcorrect
    have hb : (oi == q.correctOptionIndex) = true := beq_iff_eq.mpr hcorrect
    rw [hb]
    refine ⟨computePoints_true_eq _ _, computePoints_true_lower _ _,
      computePoints_true_upper _ _ hrt htl, ?_, ?_⟩
    · intro h0
      rw [h0, computePoints_instant]
      omega
    · intro hlate
      exact computePoints_late _ _ htl hlate
  · intro hne
    have hb : (oi == q.correctOptionIndex) = false := beq_eq_false_iff_ne.mpr hne
    rw [hb]
    exact computePoints_false _ _

/-- Witness for C1: `P1` answers option 1 of `demoQ` 5000 ms in. -/
theorem C1_submitAnswer_scoring_witness :
    ∃ s' score,
      submitAnswer [demoQ] (some demoShowing) "P1" 1 5000 =
        .ok (s', (1 : ℤ) == demoQ.correctOptionIndex, score) ∧
      ((1 : ℤ) = demoQ.correctOptionIndex →
        score = round ((1000 : ℚ) +
          max 0 (1 - ((5000 - demoShowing.questionStartTime.getD 5000 : ℤ) : ℚ) /
            ((demoQ.timeLimit : ℚ) * 1000)) * 500) ∧
        1000 ≤ score ∧ score ≤ 1500 ∧
        (5000 - demoShowing.questionStartTime.getD 5000 = 0 →
          1400 ≤ score ∧ score ≤ 1500) ∧
        (demoQ.timeLimit * 1000 ≤ 5000 - demoShowing.questionStartTime.getD 5000 →
          score = 1000)) ∧
      ((1 : ℤ) ≠ demoQ.correctOptionIndex → score = 0) :=
  C1_submitAnswer_scoring [demoQ] demoShowing "P1" 1 5000 demoQ rfl rfl rfl
    (by decide) (by decide)

/-- C5: `submitAnswer` fails `NotFound` exactly when no state exists,
`InvalidPhase` ("Not accepting answers") when the status is not
`SHOWING_QUESTION`, `DuplicateAnswer` ("Already answered") when the player
already answered; after a successful call the same player's next call fails
"Already answered" (and, failing before any persist, writes nothing). -/
theorem C5_submitAnswer_error_cases (qs : List Question) (pid : String)
    (oi now oi' now' : ℤ) :
    submitAnswer qs none pid oi now = .error "Session not found" ∧
    (∀ s : GameState, submitAnswer qs (some s) pid oi now ≠ .error "Session not found") ∧
    (∀ s : GameState, s.status ≠ Status.SHOWING_QUESTION →
      submitAnswer qs (some s) pid oi now = .error "Not accepting answers") ∧
    (∀ s : GameState, s.status = Status.SHOWING_QUESTION →
      (findAnswer s.answers pid).isSome →
      submitAnswer qs (some s) pid oi now = .error "Already answered") ∧
    (∀ (s s₁ : GameState) (c : Bool) (pts : ℤ),
      submitAnswer qs (some s) pid oi now = .ok (s₁, c, pts) →
      findAnswer s₁.answers pid = some ⟨pid, oi, now - s.questionStartTime.getD now⟩ ∧
      submitAnswer qs (some s₁) pid oi' now' = .error "Already answered") := by
  refine ⟨rfl, ?_, ?_, ?_, ?_⟩
  · intro s h
    simp only [submitAnswer] at h
    split at h
    · injection h with hmsg
      exact absurd hmsg (by decide)
    · split at h
      · injection h with hmsg
        exact absurd hmsg (by decide)
      · split at h
        · injection h with hmsg
          exact absurd hmsg (by decide)
        · exact Except.noConfusion h
  · intro s h
    simp only [submitAnswer]
    rw [if_pos h]
  · intro s hstatus hsome
    simp only [submitAnswer]
    rw [if_neg (by simp [hstatus]), if_pos hsome]
  · intro s s₁ c pts h
    obtain ⟨s0, hs0, hstatus, hnot, q, hq, hc, hpts, hs₁⟩ := submitAnswer_ok_inv h
    have hs0' : s = s0 := by injection hs0
    subst hs0'
    have hfound : findAnswer s₁.answers pid =
        some ⟨pid, oi, now - s.questionStartTime.getD now⟩ := by
      rw [hs₁]
      exact findAnswer_append_self hnot oi (now - s.questionStartTime.getD now)
    refine ⟨hfound, ?_⟩
    have hstatus₁ : s₁.status = Status.SHOWING_QUESTION := by rw [hs₁]; exact hstatus
    simp only [submitAnswer]
    rw [if_neg (by simp [hstatus₁]), if_pos (by rw [hfound]; rfl)]

/-- Witness for C5: the duplicate-answer branch on `demoAnswered`. -/
theorem C5_submitAnswer_error_cases_witness :
    submitAnswer [demoQ] (some demoAnswered) "P1" 1 0 = .error "Already answered" :=
  (C5_submitAnswer_error_cases [demoQ] "P1" 1 0 1 0).2.2.2.1 demoAnswered rfl (by decide)

end Vibehoot

namespace Vibehoot

/-- An ENDED session holding one scored player, as left behind by a
finished game. -/
def demoEnded : GameState :=
  { sessionId := "sess", quizId := "quiz", hostId := "host",
    status := .ENDED, currentQuestionIndex := 1,
    players := [⟨"P1", "Alice", 1500⟩],
    answers := [], questionStartTime := some 0, startTime := some 0 }

/-- The record update `startGame` performs on a present session. -/
def startGameState (s : GameState) (now : ℤ) : GameState :=
  { s with status := Status.ACTIVE, startTime := some now, currentQuestionIndex := -1 }

theorem startGame_some_eq' (s : GameState) (now : ℤ) :
    startGame (some s) now = some (startGameState s now) := rfl

/-- C3 counterexample: `startGame` has no phase guard, so on an `ENDED`
session it succeeds and rewrites the stored state to `ACTIVE` — refuting
the claim that every mutating operation fails on `ENDED` and leaves the
stored state unchanged. -/
theorem C3_counterexample :
    demoEnded.status = Status.ENDED ∧
    ∃ s', startGame (some demoEnded) 7 = some s' ∧ s' ≠ demoEnded ∧
      s'.status = Status.ACTIVE := by
  exact ⟨rfl, _, rfl, by decide, rfl⟩

/-- C3 amended: on an `ENDED` session `joinSession` and `submitAnswer` fail
(throwing before any persist, so the stored state is unchanged) and reads
succeed, but `startGame` succeeds and re-activates the session and
`nextQuestion` succeeds as well — `ENDED` is not terminal for them. -/
theorem C3_ended_partially_terminal (qs : List Question) (s : GameState)
    (nickname pid : String) (oi now now₁ now₂ : ℤ)
    (h : s.status = Status.ENDED) :
    joinSession (some s) nickname pid = .error "Game already started" ∧
    submitAnswer qs (some s) pid oi now = .error "Not accepting answers" ∧
    startGame (some s) now₁ = some (startGameState s now₁) ∧
    nextQuestion qs (some s) now₂ =
      .ok (nextQuestionState qs now₂ s, getQ qs (s.currentQuestionIndex + 1),
           qs.length) := by
  refine ⟨joinSession_err_of_not_waiting nickname pid (by simp [h]), ?_,
    startGame_some_eq' s now₁, nextQuestion_some_eq qs s now₂⟩
  simp only [submitAnswer]
  rw [if_pos (by simp [h])]

/-- Witness for C3 amended at the concrete ENDED session `demoEnded`. -/
theorem C3_ended_partially_terminal_witness :
    joinSession (some demoEnded) "Bob" "P2" = .error "Game already started" ∧
    submitAnswer [demoQ] (some demoEnded) "P2" 0 0 = .error "Not accepting answers" ∧
    startGame (some demoEnded) 7 = some (startGameState demoEnded 7) ∧
    nextQuestion [demoQ] (some demoEnded) 9 =
      .ok (nextQuestionState [demoQ] 9 demoEnded,
           getQ [demoQ] (demoEnded.currentQuestionIndex + 1), [demoQ].length) :=
  C3_ended_partially_terminal [demoQ] demoEnded "Bob" "P2" 0 0 7 9 rfl

/-- Index invariant (the part of C4 the code maintains): the index is at
least -1, and a session at or past the question count is ENDED. -/
def IndexInv (qs : List Question) (s : GameState) : Prop :=
  -1 ≤ s.currentQuestionIndex ∧
    ((qs.length : ℤ) ≤ s.currentQuestionIndex → s.status = Status.ENDED)

theorem indexInv_step {qs : List Question} {s s' : GameState}
    (hstep : Step qs s s') (hinv : IndexInv qs s) : IndexInv qs s' := by
  obtain ⟨hlo, hhi⟩ := hinv
  cases hstep with
  | join nickname pid h =>
    obtain ⟨s0, hs0, hW, hs'⟩ := joinSession_ok_inv h
    have hss : s = s0 := by injection hs0
    subst hss
    subst hs'
    refine ⟨hlo, fun hle => ?_⟩
    have hcon := hhi hle
    rw [hW] at hcon
    exact Status.noConfusion hcon
  | start now h =>
    rw [startGame_some_eq'] at h
    injection h with hs'
    subst hs'
    exact ⟨by simp [startGameState], fun hle => by exfalso; simp [startGameState] at hle; omega⟩
  | next now q n h =>
    rw [nextQuestion_some_eq] at h
    simp only [Except.ok.injEq, Prod.mk.injEq] at h
    obtain ⟨hs', -, -⟩ := h
    subst hs'
    refine ⟨by simp only [nextQuestionState]; omega, fun hle => ?_⟩
    simp only [nextQuestionState] at hle ⊢
    rw [getQ_eq_none_of_length_le qs _ hle]
    rfl
  | submit pid oi now c pts h =>
    obtain ⟨s0, hs0, hstatus, hnot, q, hq, hc, hpts, hs'⟩ := submitAnswer_ok_inv h
    have hss : s = s0 := by injection hs0
    subst hss
    subst hs'
    refine ⟨hlo, fun hle => ?_⟩
    have hcon := hhi hle
    rw [hstatus] at hcon
    exact Status.noConfusion hcon
  | results ci d k h =>
    obtain ⟨s0, hs0, q, hq, hs', -, -, -⟩ := showResults_ok_inv h
    have hss : s = s0 := by injection hs0
    subst hss
    subst hs'
    refine ⟨hlo, fun hle => ?_⟩
    exfalso
    have hb := (getQ_some_bounds hq).2
    have hle' : (qs.length : ℤ) ≤ s.currentQuestionIndex := hle
    omega
  | finish h =>
    rw [endGame_some_eq] at h
    injection h with hs'
    subst hs'
    exact ⟨hlo, fun _ => rfl⟩

theorem indexInv_reachable {qs : List Question} {sid qid hid : String}
    {s : GameState} (h : Reachable qs sid qid hid s) : IndexInv qs s := by
  induction h with
  | refl =>
    refine ⟨by simp [initialState], fun hle => ?_⟩
    exfalso
    simp only [initialState] at hle
    omega
  | tail _ hstep ih => exact indexInv_step hstep ih

/-- C4 amended: in every reachable state `currentQuestionIndex ≥ -1` and an
index at or past `questionCount` implies `status == ENDED`; across a single
successful operation the index never decreases except for the `startGame`
reset to -1.  The claimed upper bound `questionCount` itself does not hold
(see the counterexample: `nextQuestion` keeps incrementing after ENDED). -/
theorem C4_index_invariant (qs : List Question) (sid qid hid : String)
    (s s' : GameState) (hreach : Reachable qs sid qid hid s) :
    (-1 ≤ s.currentQuestionIndex ∧
      ((qs.length : ℤ) ≤ s.currentQuestionIndex → s.status = Status.ENDED)) ∧
    (Step qs s s' →
      s.currentQuestionIndex ≤ s'.currentQuestionIndex ∨
        (∃ now, startGame (some s) now = some s' ∧
          s'.currentQuestionIndex = -1)) := by
  refine ⟨indexInv_reachable hreach, fun hstep => ?_⟩
  cases hstep with
  | join nickname pid h =>
    obtain ⟨s0, hs0, hW, hs'⟩ := joinSession_ok_inv h
    have hss : s = s0 := by injection hs0
    subst hss
    subst hs'
    exact Or.inl (le_refl _)
  | start now h =>
    rw [startGame_some_eq'] at h
    injection h with hs'
    subst hs'
    exact Or.inr ⟨now, rfl, rfl⟩
  | next now q n h =>
    rw [nextQuestion_some_eq] at h
    simp only [Except.ok.injEq, Prod.mk.injEq] at h
    obtain ⟨hs', -, -⟩ := h
    subst hs'
    exact Or.inl (by simp only [nextQuestionState]; omega)
  | submit pid oi now c pts h =>
    obtain ⟨s0, hs0, hstatus, hnot, q, hq, hc, hpts, hs'⟩ := submitAnswer_ok_inv h
    have hss : s = s0 := by injection hs0
    subst hss
    subst hs'
    exact Or.inl (le_refl _)
  | results ci d k h =>
    obtain ⟨s0, hs0, q, hq, hs', -, -, -⟩ := showResults_ok_inv h
    have hss : s = s0 := by injection hs0
    subst hss
    subst hs'
    exact Or.inl (le_refl _)
  | finish h =>
    rw [endGame_some_eq] at h
    injection h with hs'
    subst hs'
    exact Or.inl (le_refl _)

end Vibehoot

namespace Vibehoot

/-! Concrete reachable trace used by the C4 counterexample: one-question
quiz; start, then three `nextQuestion` calls. -/

def cexS0 : GameState := initialState "sess" "quiz" "host"

def cexS1 : GameState := startGameState cexS0 0

def cexS2 : GameState := nextQuestionState [demoQ] 0 cexS1

def cexS3 : GameState := nextQuestionState [demoQ] 0 cexS2

def cexS4 : GameState := nextQuestionState [demoQ] 0 cexS3

/-- C4 counterexample: for the 1-question quiz `[demoQ]`, the state reached
by `startGame` and three `nextQuestion` calls has `currentQuestionIndex = 2`,
outside the claimed range `[-1, questionCount] = [-1, 1]` (`nextQuestion`
has no guard and keeps incrementing after the game has ENDED). -/
theorem C4_counterexample :
    Reachable [demoQ] "sess" "quiz" "host" cexS4 ∧
    cexS4.currentQuestionIndex = 2 ∧ ([demoQ].length : ℤ) = 1 ∧
    ¬(cexS4.currentQuestionIndex ≤ ([demoQ].length : ℤ)) := by
  refine ⟨?_, by decide, by decide, by decide⟩
  have h1 : Step [demoQ] cexS0 cexS1 := Step.start _ _ 0 rfl
  have h2 : Step [demoQ] cexS1 cexS2 :=
    Step.next _ _ 0 (getQ [demoQ] (cexS1.currentQuestionIndex + 1)) [demoQ].length rfl
  have h3 : Step [demoQ] cexS2 cexS3 :=
    Step.next _ _ 0 (getQ [demoQ] (cexS2.currentQuestionIndex + 1)) [demoQ].length rfl
  have h4 : Step [demoQ] cexS3 cexS4 :=
    Step.next _ _ 0 (getQ [demoQ] (cexS3.currentQuestionIndex + 1)) [demoQ].length rfl
  exact Relation.ReflTransGen.head h1 (Relation.ReflTransGen.head h2
    (Relation.ReflTransGen.head h3 (Relation.ReflTransGen.single h4)))

/-- Witness for C4 amended, at the freshly created session and a `startGame`
step. -/
theorem C4_index_invariant_witness :
    ((-1 ≤ cexS0.currentQuestionIndex ∧
      (([demoQ].length : ℤ) ≤ cexS0.currentQuestionIndex →
        cexS0.status = Status.ENDED)) ∧
    (Step [demoQ] cexS0 cexS1 →
      cexS0.currentQuestionIndex ≤ cexS1.currentQuestionIndex ∨
        (∃ now, startGame (some cexS0) now = some cexS1 ∧
          cexS1.currentQuestionIndex = -1))) :=
  C4_index_invariant [demoQ] "sess" "quiz" "host" cexS0 cexS1
    Relation.ReflTransGen.refl

/-- Auxiliary invariant: while the session is WAITING every score is 0.
Scores only change in `submitAnswer`, which requires `SHOWING_QUESTION`,
and no operation ever sets the status back to WAITING. -/
def WaitingZero (s : GameState) : Prop :=
  s.status = Status.WAITING → ∀ p ∈ s.players, p.score = 0

theorem waitingZero_step {qs : List Question} {s s' : GameState}
    (hstep : Step qs s s') (hinv : WaitingZero s) : WaitingZero s' := by
  cases hstep with
  | join nickname pid h =>
    obtain ⟨s0, hs0, hW, hs'⟩ := joinSession_ok_inv h
    have hss : s = s0 := by injection hs0
    subst hss
    subst hs'
    intro _
    exact upsert_scores_zero (hinv hW) pid nickname
  | start now h =>
    rw [startGame_some_eq'] at h
    injection h with hs'
    subst hs'
    intro hcon
    exact Status.noConfusion hcon
  | next now q n h =>
    rw [nextQuestion_some_eq] at h
    simp only [Except.ok.injEq, Prod.mk.injEq] at h
    obtain ⟨hs', -, -⟩ := h
    subst hs'
    intro hcon
    simp only [nextQuestionState] at hcon
    split at hcon <;> exact Status.noConfusion hcon
  | submit pid oi now c pts h =>
    obtain ⟨s0, hs0, hstatus, hnot, q, hq, hc, hpts, hs'⟩ := submitAnswer_ok_inv h
    have hss : s = s0 := by injection hs0
    subst hss
    subst hs'
    intro hcon
    have hcon' : s.status = Status.WAITING := hcon
    rw [hstatus] at hcon'
    exact Status.noConfusion hcon'
  | results ci d k h =>
    obtain ⟨s0, hs0, q, hq, hs', -, -, -⟩ := showResults_ok_inv h
    have hss : s = s0 := by injection hs0
    subst hss
    subst hs'
    intro hcon
    exact Status.noConfusion hcon
  | finish h =>
    rw [endGame_some_eq] at h
    injection h with hs'
    subst hs'
    intro hcon
    exact Status.noConfusion hcon

theorem waitingZero_reachable {qs : List Question} {sid qid hid : String}
    {s : GameState} (h : Reachable qs sid qid hid s) : WaitingZero s := by
  induction h with
  | refl => intro _ p hp; simp [initialState] at hp
  | tail _ hstep ih => exact waitingZero_step hstep ih

end Vibehoot

namespace Vibehoot

/-- C8: across any single successful Engine operation from a reachable
state, a present player stays present with a score at least as large:
`submitAnswer` adds a non-negative `computePoints` value, and the
`joinSession` upsert (which resets the score to 0) is only reachable in
WAITING, where every score is still 0. -/
theorem C8_score_never_decreases (qs : List Question) (sid qid hid : String)
    (s s' : GameState) (pid : String) (p : Player)
    (hreach : Reachable qs sid qid hid s) (hstep : Step qs s s')
    (hfind : findPlayer s.players pid = some p) :
    ∃ p', findPlayer s'.players pid = some p' ∧ p.score ≤ p'.score := by
  cases hstep with
  | join nickname pid' h =>
    obtain ⟨s0, hs0, hW, hs'⟩ := joinSession_ok_inv h
    have hss : s = s0 := by injection hs0
    subst hss
    subst hs'
    have hzero : p.score = 0 :=
      waitingZero_reachable hreach hW p (List.mem_of_find?_eq_some hfind)
    show ∃ p', findPlayer (upsertPlayer s.players pid' nickname) pid = some p' ∧
      p.score ≤ p'.score
    by_cases hpp : pid = pid'
    · subst hpp
      exact ⟨⟨pid, nickname, 0⟩, findPlayer_upsert_self s.players pid nickname,
        le_of_eq hzero⟩
    · rw [findPlayer_upsert_other s.players pid' nickname pid hpp]
      exact ⟨p, hfind, le_refl _⟩
  | start now h =>
    rw [startGame_some_eq'] at h
    injection h with hs'
    subst hs'
    exact ⟨p, hfind, le_refl _⟩
  | next now q n h =>
    rw [nextQuestion_some_eq] at h
    simp only [Except.ok.injEq, Prod.mk.injEq] at h
    obtain ⟨hs', -, -⟩ := h
    subst hs'
    exact ⟨p, hfind, le_refl _⟩
  | submit pid' oi now c pts h =>
    obtain ⟨s0, hs0, hstatus, hnot, q, hq, hc, hpts, hs'⟩ := submitAnswer_ok_inv h
    have hss : s = s0 := by injection hs0
    subst hss
    subst hs'
    have hnn : 0 ≤ pts := by rw [hpts]; exact computePoints_nonneg _ _ _
    show ∃ p', findPlayer (creditPlayer s.players pid' pts) pid = some p' ∧
      p.score ≤ p'.score
    rw [findPlayer_credit, hfind]
    by_cases hpe : p.id = pid'
    · exact ⟨_, rfl, by simp [hpe]; omega⟩
    · exact ⟨_, rfl, by simp [hpe]⟩
  | results ci d k h =>
    obtain ⟨s0, hs0, q, hq, hs', -, -, -⟩ := showResults_ok_inv h
    have hss : s = s0 := by injection hs0
    subst hss
    subst hs'
    exact ⟨p, hfind, le_refl _⟩
  | finish h =>
    rw [endGame_some_eq] at h
    injection h with hs'
    subst hs'
    exact ⟨p, hfind, le_refl _⟩

/-- The session after `P1` joins the fresh `cexS0`. -/
def demoJoined : GameState := { cexS0 with players := [⟨"P1", "Alice", 0⟩] }

/-- The session after the host then starts the game. -/
def demoStarted : GameState := startGameState demoJoined 3

/-- Witness for C8: `P1` joined with score 0 and `startGame` runs. -/
theorem C8_score_never_decreases_witness :
    ∃ p', findPlayer demoStarted.players "P1" = some p' ∧
      (⟨"P1", "Alice", 0⟩ : Player).score ≤ p'.score :=
  C8_score_never_decreases [demoQ] "sess" "quiz" "host" demoJoined demoStarted
    "P1" ⟨"P1", "Alice", 0⟩
    (Relation.ReflTransGen.single (Step.join _ _ "Alice" "P1" rfl))
    (Step.start _ _ 3 rfl) (by decide)

end Vibehoot

namespace Vibehoot

/-- Repeated application of the state update performed by `nextQuestion`
(the host calling it k times in a row, each call succeeding). -/
def iterNext (qs : List Question) (now : ℤ) : ℕ → GameState → GameState
  | 0, s => s
  | k+1, s => nextQuestionState qs now (iterNext qs now k s)

theorem iterNext_index (qs : List Question) (now : ℤ) (s : GameState) (k : ℕ) :
    (iterNext qs now k s).currentQuestionIndex = s.currentQuestionIndex + k := by
  induction k with
  | zero => simp [iterNext]
  | succ k ih =>
    show (nextQuestionState qs now (iterNext qs now k s)).currentQuestionIndex =
      s.currentQuestionIndex + (k + 1 : ℕ)
    show (iterNext qs now k s).currentQuestionIndex + 1 = s.currentQuestionIndex + (k + 1 : ℕ)
    rw [ih]
    push_cast
    ring

theorem iterNext_peel (qs : List Question) (now : ℤ) (s0 : GameState) (k : ℕ)
    (hk1 : 1 ≤ k) :
    iterNext qs now k s0 = nextQuestionState qs now (iterNext qs now (k - 1) s0) := by
  cases k with
  | zero => omega
  | succ k => simp [iterNext]

/-- C6: for a quiz with `N = qs.length ≥ 1` questions, after `startGame`
the k-th `nextQuestion` call (1 ≤ k ≤ N) returns the k-th question in
ascending order with `totalQuestions = N` and leaves `SHOWING_QUESTION`,
`currentQuestionIndex = k - 1`, cleared `answers` and a fresh
`questionStartTime`; the (N+1)-th call returns a `none` question and leaves
`status = ENDED`. -/
theorem C6_nextQuestion_sequence (qs : List Question) (s s0 : GameState)
    (startNow now : ℤ) (k : ℕ)
    (hstart : startGame (some s) startNow = some s0)
    (hk1 : 1 ≤ k) (hkN : k ≤ qs.length) :
    nextQuestion qs (some (iterNext qs now (k - 1) s0)) now =
      .ok (iterNext qs now k s0, qs.get? (k - 1), qs.length) ∧
    (qs.get? (k - 1)).isSome ∧
    (iterNext qs now k s0).status = Status.SHOWING_QUESTION ∧
    (iterNext qs now k s0).currentQuestionIndex = ((k : ℕ) : ℤ) - 1 ∧
    (iterNext qs now k s0).answers = [] ∧
    (iterNext qs now k s0).questionStartTime = some now ∧
    (∃ sEnd, nextQuestion qs (some (iterNext qs now qs.length s0)) now =
      .ok (sEnd, none, qs.length) ∧ sEnd.status = Status.ENDED) := by
  have hidx0 : s0.currentQuestionIndex = -1 := by
    rw [startGame_some_eq'] at hstart
    injection hstart with h'
    rw [← h']
    rfl
  have hidx : ∀ m : ℕ, (iterNext qs now m s0).currentQuestionIndex = -1 + m := by
    intro m
    rw [iterNext_index, hidx0]
  have hpeel := iterNext_peel qs now s0 k hk1
  have hgq : getQ qs ((iterNext qs now (k - 1) s0).currentQuestionIndex + 1) =
      qs.get? (k - 1) := by
    rw [hidx (k - 1)]
    have h0 : (0 : ℤ) ≤ -1 + ((k - 1 : ℕ) : ℤ) + 1 := by omega
    rw [getQ_eq_of_nonneg _ _ h0]
    congr 1
    omega
  have hsome : (qs.get? (k - 1)).isSome := by
    cases hg : qs.get? (k - 1) with
    | none => rw [List.get?_eq_none] at hg; omega
    | some q => rfl
  have hnone : getQ qs ((iterNext qs now qs.length s0).currentQuestionIndex + 1) =
      none := by
    rw [hidx qs.length]
    apply getQ_eq_none_of_length_le
    omega
  refine ⟨?_, hsome, ?_, ?_, ?_, ?_, ?_⟩
  · rw [hpeel, nextQuestion_some_eq, hgq]
  · rw [hpeel]
    show (if (getQ qs ((iterNext qs now (k - 1) s0).currentQuestionIndex + 1)).isSome
      then Status.SHOWING_QUESTION else Status.ENDED) = Status.SHOWING_QUESTION
    rw [hgq]
    exact if_pos hsome
  · rw [hidx k]
    omega
  · rw [hpeel]
    rfl
  · rw [hpeel]
    rfl
  · refine ⟨nextQuestionState qs now (iterNext qs now qs.length s0), ?_, ?_⟩
    · rw [nextQuestion_some_eq, hnone]
    · show (if (getQ qs ((iterNext qs now qs.length s0).currentQuestionIndex + 1)).isSome
        then Status.SHOWING_QUESTION else Status.ENDED) = Status.ENDED
      rw [hnone]
      rfl

/-- Witness for C6: the single-question quiz `[demoQ]`, k = 1. -/
theorem C6_nextQuestion_sequence_witness :
    nextQuestion [demoQ] (some (iterNext [demoQ] 0 (1 - 1) cexS1)) 0 =
      .ok (iterNext [demoQ] 0 1 cexS1, [demoQ].get? (1 - 1), [demoQ].length) ∧
    ([demoQ].get? (1 - 1)).isSome ∧
    (iterNext [demoQ] 0 1 cexS1).status = Status.SHOWING_QUESTION ∧
    (iterNext [demoQ] 0 1 cexS1).currentQuestionIndex = ((1 : ℕ) : ℤ) - 1 ∧
    (iterNext [demoQ] 0 1 cexS1).answers = [] ∧
    (iterNext [demoQ] 0 1 cexS1).questionStartTime = some 0 ∧
    (∃ sEnd, nextQuestion [demoQ] (some (iterNext [demoQ] 0 [demoQ].length cexS1)) 0 =
      .ok (sEnd, none, [demoQ].length) ∧ sEnd.status = Status.ENDED) :=
  C6_nextQuestion_sequence [demoQ] cexS0 cexS1 0 0 1 rfl (by decide) (by decide)

end Vibehoot

namespace Vibehoot

/-- A two-option question (the data model allows 2 to 4 options). -/
def twoOptQ : Question :=
  { id := "q2", text := "yes or no", options := ["yes", "no"],
    correctOptionIndex := 1, timeLimit := 20, order := 0 }

/-- A session showing `twoOptQ` with three recorded answers [0, 1, 1]. -/
def c7State : GameState :=
  { sessionId := "sess", quizId := "quiz", hostId := "host",
    status := .SHOWING_QUESTION, currentQuestionIndex := 0,
    players := [⟨"P1", "Alice", 0⟩, ⟨"P2", "Bob", 0⟩, ⟨"P3", "Cleo", 0⟩],
    answers := [⟨"P1", 0, 10⟩, ⟨"P2", 1, 20⟩, ⟨"P3", 1, 30⟩],
    questionStartTime := some 0, startTime := some 0 }

/-- C7 counterexample: for a two-option question the distribution array the
code returns still has length 4 (`[1, 2, 0, 0]` for answers [0, 1, 1]), not
the claimed "sized to the option count" (which would be 2). -/
theorem C7_counterexample :
    showResults [twoOptQ] (some c7State) =
      .ok ({ c7State with status := Status.SHOWING_RESULTS }, 1, [1, 2, 0, 0], 2) ∧
    twoOptQ.options.length = 2 ∧
    ([1, 2, 0, 0] : List ℕ).length ≠ twoOptQ.options.length := by
  refine ⟨rfl, rfl, by decide⟩

/-- C7 amended: `showResults` with a question at `currentQuestionIndex`
sets `SHOWING_RESULTS` and returns a fixed length-4 distribution array
(regardless of the question's option count) whose entry `i < 4` counts the
recorded answers with `optionIndex == i`, and a `correctCount` of the
answers matching `correctOptionIndex`. -/
theorem C7_showResults_distribution (qs : List Question) (s : GameState)
    (q : Question) (hq : getQ qs s.currentQuestionIndex = some q) :
    showResults qs (some s) =
      .ok ({ s with status := Status.SHOWING_RESULTS }, q.correctOptionIndex,
        distributionOf s.answers,
        s.answers.countP (fun a => a.optionIndex == q.correctOptionIndex)) ∧
    (distributionOf s.answers).length = 4 ∧
    (∀ i : ℕ, i < 4 →
      (distributionOf s.answers).get? i =
        some (s.answers.countP (fun a => a.optionIndex == (i : ℤ)))) := by
  refine ⟨showResults_ok_eq hq, rfl, ?_⟩
  intro i hi
  interval_cases i <;> rfl

/-- Witness for C7 amended, at `twoOptQ` and `c7State`. -/
theorem C7_showResults_distribution_witness :
    showResults [twoOptQ] (some c7State) =
      .ok ({ c7State with status := Status.SHOWING_RESULTS },
        twoOptQ.correctOptionIndex,
        distributionOf c7State.answers,
        c7State.answers.countP
          (fun a => a.optionIndex == twoOptQ.correctOptionIndex)) ∧
    (distributionOf c7State.answers).length = 4 ∧
    (∀ i : ℕ, i < 4 →
      (distributionOf c7State.answers).get? i =
        some (c7State.answers.countP (fun a => a.optionIndex == (i : ℤ)))) :=
  C7_showResults_distribution [twoOptQ] c7State twoOptQ rfl

end Vibehoot

namespace Vibehoot

/-- C9: `getLeaderboard` returns `[]` for an absent session; otherwise the
players sorted by score descending, truncated to at most 10 entries, with
the first returned entry holding a maximal score. -/
theorem C9_getLeaderboard (st : Option GameState) :
    (st = none → getLeaderboard st = []) ∧
    (∀ s : GameState, st = some s →
      (getLeaderboard st).length = min 10 s.players.length ∧
      List.Pairwise (fun a b : Player => b.score ≤ a.score) (getLeaderboard st) ∧
      (∀ p ∈ s.players, ∃ q, (getLeaderboard st).get? 0 = some q ∧
        p.score ≤ q.score)) := by
  constructor
  · intro h
    rw [h]
    rfl
  · intro s hs
    subst hs
    have htrans : ∀ (a b c : Player), (decide (b.score ≤ a.score)) = true →
        (decide (c.score ≤ b.score)) = true →
        (decide (c.score ≤ a.score)) = true := by
      intro a b c hab hbc
      rw [decide_eq_true_iff] at hab hbc ⊢
      omega
    have htotal : ∀ (a b : Player),
        ((decide (b.score ≤ a.score)) || (decide (a.score ≤ b.score))) = true := by
      intro a b
      rcases le_total b.score a.score with h | h <;> simp [h]
    have hsorted : List.Pairwise
        (fun a b : Player => (decide (b.score ≤ a.score)) = true)
        (sortByScoreDesc s.players) :=
      List.sorted_mergeSort htrans htotal s.players
    have hperm : (sortByScoreDesc s.players).Perm s.players :=
      List.mergeSort_perm s.players _
    have hlb : getLeaderboard (some s) = (sortByScoreDesc s.players).take 10 := rfl
    refine ⟨?_, ?_, ?_⟩
    · rw [hlb, List.length_take]
      congr 1
      exact List.length_mergeSort s.players
    · rw [hlb]
      exact (List.Pairwise.sublist (List.take_sublist 10 _) hsorted).imp
        (fun h => of_decide_eq_true h)
    · intro p hp
      have hmem : p ∈ sortByScoreDesc s.players := hperm.mem_iff.mpr hp
      cases hl : sortByScoreDesc s.players with
      | nil =>
        rw [hl] at hmem
        simp at hmem
      | cons q rest =>
        rw [hl] at hmem hsorted
        refine ⟨q, ?_, ?_⟩
        · rw [hlb, hl]
          rfl
        · rcases List.mem_cons.mp hmem with heq | hmem'
          · rw [heq]
          · exact of_decide_eq_true (List.rel_of_pairwise_cons hsorted hmem')

/-- A finished session with 15 players and distinct scores. -/
def demo15 : GameState :=
  { sessionId := "sess", quizId := "quiz", hostId := "host",
    status := .ENDED, currentQuestionIndex := 1,
    players := [⟨"P01", "a", 300⟩, ⟨"P02", "b", 1400⟩, ⟨"P03", "c", 0⟩,
      ⟨"P04", "d", 2750⟩, ⟨"P05", "e", 1000⟩, ⟨"P06", "f", 2000⟩,
      ⟨"P07", "g", 1250⟩, ⟨"P08", "h", 500⟩, ⟨"P09", "i", 2400⟩,
      ⟨"P10", "j", 100⟩, ⟨"P11", "k", 1750⟩, ⟨"P12", "l", 900⟩,
      ⟨"P13", "m", 2900⟩, ⟨"P14", "n", 1100⟩, ⟨"P15", "o", 600⟩],
    answers := [], questionStartTime := some 0, startTime := some 0 }

/-- Witness for C9 at the 15-player session `demo15`. -/
theorem C9_getLeaderboard_witness :
    (getLeaderboard (some demo15)).length = min 10 demo15.players.length ∧
    List.Pairwise (fun a b : Player => b.score ≤ a.score)
      (getLeaderboard (some demo15)) ∧
    (∀ p ∈ demo15.players, ∃ q, (getLeaderboard (some demo15)).get? 0 = some q ∧
      p.score ≤ q.score) :=
  (C9_getLeaderboard (some demo15)).2 demo15 rfl

end Vibehoot

namespace Vibehoot

/-- Sum of the 4-bucket distribution: exactly the answers whose
`optionIndex` lies in `[0, 4)` are counted; out-of-range answers are
silently excluded. -/
theorem distributionOf_sum (ans : List Answer) :
    (distributionOf ans).sum =
      ans.countP (fun a => decide (0 ≤ a.optionIndex ∧ a.optionIndex < 4)) := by
  induction ans with
  | nil => rfl
  | cons a t ih =>
    simp only [distributionOf, List.countP_cons, List.sum_cons, List.sum_nil] at ih ⊢
    have hcase : ((if (a.optionIndex == 0) = true then 1 else 0) +
        ((if (a.optionIndex == 1) = true then 1 else 0) +
         ((if (a.optionIndex == 2) = true then 1 else 0) +
          (if (a.optionIndex == 3) = true then 1 else 0))) : ℕ) =
        if (decide (0 ≤ a.optionIndex ∧ a.optionIndex < 4)) = true then 1 else 0 := by
      by_cases h0 : a.optionIndex = 0
      · simp [h0]
      · by_cases h1 : a.optionIndex = 1
        · simp [h1]
        · by_cases h2 : a.optionIndex = 2
          · simp [h2]
          · by_cases h3 : a.optionIndex = 3
            · simp [h3]
            · have hout : ¬(0 ≤ a.optionIndex ∧ a.optionIndex < 4) := by omega
              simp [h0, h1, h2, h3, hout]
    omega

/-- C10: `submitAnswer` performs no range validation of `optionIndex`: any
integer (negative or past the option count) is accepted, recorded, and
scores 0 when it differs from `correctOptionIndex`; `showResults` counts
only indices 0..3, so the distribution sum can be smaller than the number
of recorded answers (strictly, e.g. for the single recorded index 7). -/
theorem C10_no_optionIndex_validation (qs : List Question) (s : GameState)
    (pid : String) (oi now : ℤ) (q : Question)
    (hstatus : s.status = Status.SHOWING_QUESTION)
    (hnot : findAnswer s.answers pid = none)
    (hq : getQ qs s.currentQuestionIndex = some q) :
    (∃ s' pts, submitAnswer qs (some s) pid oi now =
        .ok (s', oi == q.correctOptionIndex, pts) ∧
      findAnswer s'.answers pid =
        some ⟨pid, oi, now - s.questionStartTime.getD now⟩ ∧
      (oi ≠ q.correctOptionIndex → pts = 0)) ∧
    (∀ ans : List Answer, (distributionOf ans).sum =
      ans.countP (fun a => decide (0 ≤ a.optionIndex ∧ a.optionIndex < 4))) ∧
    (∀ ans : List Answer, (distributionOf ans).sum ≤ ans.length) ∧
    (distributionOf [⟨"P9", 7, 0⟩]).sum = 0 ∧
    ([⟨"P9", 7, 0⟩] : List Answer).length = 1 := by
  refine ⟨?_, distributionOf_sum, ?_, rfl, rfl⟩
  · refine ⟨_, _, submitAnswer_ok_eq pid oi now hstatus hnot hq, ?_, ?_⟩
    · exact findAnswer_append_self hnot oi (now - s.questionStartTime.getD now)
    · intro hne
      have hb : (oi == q.correctOptionIndex) = false := beq_eq_false_iff_ne.mpr hne
      rw [hb]
      exact computePoints_false _ _
  · intro ans
    rw [distributionOf_sum]
    exact List.countP_le_length _

/-- Witness for C10: `P1` submits the out-of-range option index -5. -/
theorem C10_no_optionIndex_validation_witness :
    (∃ s' pts, submitAnswer [demoQ] (some demoShowing) "P1" (-5) 40 =
        .ok (s', (-5 : ℤ) == demoQ.correctOptionIndex, pts) ∧
      findAnswer s'.answers "P1" =
        some ⟨"P1", -5, 40 - demoShowing.questionStartTime.getD 40⟩ ∧
      ((-5 : ℤ) ≠ demoQ.correctOptionIndex → pts = 0)) ∧
    (∀ ans : List Answer, (distributionOf ans).sum =
      ans.countP (fun a => decide (0 ≤ a.optionIndex ∧ a.optionIndex < 4))) ∧
    (∀ ans : List Answer, (distributionOf ans).sum ≤ ans.length) ∧
    (distributionOf [⟨"P9", 7, 0⟩]).sum = 0 ∧
    ([⟨"P9", 7, 0⟩] : List Answer).length = 1 :=
  C10_no_optionIndex_validation [demoQ] demoShowing "P1" (-5) 40 demoQ rfl rfl rfl

end Vibehoot

namespace Vibehoot

/-- The value one `submitAnswer` call writes with `redis.set`, as a function
of the snapshot its `redis.get` returned.  The source awaits the quiz
catalog between the get and the set with no per-join-code lock, CAS, or
server-side transform, so under concurrent load another call on the same
join code can read the same snapshot before this write lands. -/
def submitWrite (qs : List Question) (snapshot : GameState) (pid : String)
    (oi now : ℤ) : Option GameState :=
  match submitAnswer qs (some snapshot) pid oi now with
  | .ok (s', _, _) => some s'
  | .error _ => none

/-- One (possibly absent) `redis.set` applied to the stored value: a write
replaces the stored state wholesale (last write wins), a throw leaves it. -/
def applyWrite (store : Option GameState) (w : Option GameState) :
    Option GameState :=
  match w with
  | some s => some s
  | none => store

/-- A SHOWING_QUESTION session for `demoQ` with two players, none of whom
has answered yet. -/
def raceS0 : GameState :=
  { sessionId := "sess", quizId := "quiz", hostId := "host",
    status := .SHOWING_QUESTION, currentQuestionIndex := 0,
    players := [⟨"P1", "Alice", 0⟩, ⟨"P2", "Bob", 0⟩],
    answers := [], questionStartTime := some 0, startTime := some 0 }

/-- The stored state after the interleaving read₁ read₂ write₁ write₂ in
which both `submitAnswer` calls read `raceS0`. -/
def raceFinal : GameState :=
  { sessionId := "sess", quizId := "quiz", hostId := "host",
    status := .SHOWING_QUESTION, currentQuestionIndex := 0,
    players := [⟨"P1", "Alice", 0⟩, ⟨"P2", "Bob", 0⟩],
    answers := [⟨"P2", 0, 200⟩],
    questionStartTime := some 0, startTime := some 0 }

/-- C2 counterexample: two concurrent `submitAnswer` calls by distinct
players both read the stored snapshot `raceS0` before either writes (legal,
as each call suspends between its get and its set); both calls succeed, the
writes land in order, and the final stored state has lost P1's answer
record: the get/mutate/set cycle is not atomic per join code. -/
theorem C2_counterexample :
    (submitWrite [demoQ] raceS0 "P1" 0 100).isSome ∧
    (submitWrite [demoQ] raceS0 "P2" 0 200).isSome ∧
    applyWrite (applyWrite (some raceS0) (submitWrite [demoQ] raceS0 "P1" 0 100))
      (submitWrite [demoQ] raceS0 "P2" 0 200) = some raceFinal ∧
    findAnswer raceFinal.answers "P1" = none ∧
    findAnswer raceFinal.answers "P2" = some ⟨"P2", 0, 200⟩ ∧
    (∃ s1, submitWrite [demoQ] raceS0 "P1" 0 100 = some s1 ∧
      findAnswer s1.answers "P1" = some ⟨"P1", 0, 100⟩) := by
  refine ⟨by decide, by decide, by decide, by decide, by decide, _, rfl, by decide⟩

/-- C2 amended: the Engine provides no per-join-code serialization, and the
interleaving in the counterexample loses an update; the claimed outcome —
both answer records and both score credits present — holds when the two
calls are serialized, the second reading the state the first wrote. -/
theorem C2_sequential_submits_preserved (qs : List Question)
    (s s₁ s₂ : GameState) (p1 p2 : String) (oi1 oi2 now1 now2 : ℤ)
    (c1 c2 : Bool) (pts1 pts2 : ℤ) (hne : p1 ≠ p2)
    (h1 : submitAnswer qs (some s) p1 oi1 now1 = .ok (s₁, c1, pts1))
    (h2 : submitAnswer qs (some s₁) p2 oi2 now2 = .ok (s₂, c2, pts2)) :
    findAnswer s₂.answers p1 =
      some ⟨p1, oi1, now1 - s.questionStartTime.getD now1⟩ ∧
    findAnswer s₂.answers p2 =
      some ⟨p2, oi2, now2 - s₁.questionStartTime.getD now2⟩ ∧
    (∀ p, findPlayer s.players p1 = some p →
      ∃ p', findPlayer s₂.players p1 = some p' ∧ p'.score = p.score + pts1) ∧
    (∀ p, findPlayer s.players p2 = some p →
      ∃ p', findPlayer s₂.players p2 = some p' ∧ p'.score = p.score + pts2) := by
  obtain ⟨sa, hsa, hst1, hnot1, q1, hq1, hc1, hpts1, hs₁⟩ := submitAnswer_ok_inv h1
  have hsa' : s = sa := by injection hsa
  subst hsa'
  obtain ⟨sb, hsb, hst2, hnot2, q2, hq2, hc2, hpts2, hs₂⟩ := submitAnswer_ok_inv h2
  have hsb' : s₁ = sb := by injection hsb
  subst hsb'
  have hans1 : s₁.answers =
      s.answers ++ [⟨p1, oi1, now1 - s.questionStartTime.getD now1⟩] := by
    rw [hs₁]
  have hans2 : s₂.answers =
      s₁.answers ++ [⟨p2, oi2, now2 - s₁.questionStartTime.getD now2⟩] := by
    rw [hs₂]
  have hpl1 : s₁.players = creditPlayer s.players p1 pts1 := by rw [hs₁]
  have hpl2 : s₂.players = creditPlayer s₁.players p2 pts2 := by rw [hs₂]
  refine ⟨?_, ?_, ?_, ?_⟩
  · rw [hans2, findAnswer_append_other _ (Ne.symm hne), hans1]
    exact findAnswer_append_self hnot1 oi1 (now1 - s.questionStartTime.getD now1)
  · rw [hans2]
    exact findAnswer_append_self hnot2 oi2 (now2 - s₁.questionStartTime.getD now2)
  · intro p hp
    have hid := findPlayer_id hp
    rw [hpl2, findPlayer_credit, hpl1, findPlayer_credit, hp]
    refine ⟨_, rfl, ?_⟩
    simp [hid, hne]
  · intro p hp
    have hid := findPlayer_id hp
    rw [hpl2, findPlayer_credit, hpl1, findPlayer_credit, hp]
    refine ⟨_, rfl, ?_⟩
    simp [hid, Ne.symm hne]

/-- The stored state after `P1`'s sequential answer. -/
def seqS1 : GameState := { raceS0 with answers := [⟨"P1", 0, 100⟩] }

/-- The stored state after `P2`'s answer submitted on top of `seqS1`. -/
def seqS2 : GameState :=
  { raceS0 with answers := [⟨"P1", 0, 100⟩, ⟨"P2", 0, 200⟩] }

/-- Witness for C2 amended: the serialized pair of answers on `raceS0`. -/
theorem C2_sequential_submits_preserved_witness :
    findAnswer seqS2.answers "P1" =
      some ⟨"P1", 0, 100 - raceS0.questionStartTime.getD 100⟩ ∧
    findAnswer seqS2.answers "P2" =
      some ⟨"P2", 0, 200 - seqS1.questionStartTime.getD 200⟩ ∧
    (∀ p, findPlayer raceS0.players "P1" = some p →
      ∃ p', findPlayer seqS2.players "P1" = some p' ∧ p'.score = p.score + 0) ∧
    (∀ p, findPlayer raceS0.players "P2" = some p →
      ∃ p', findPlayer seqS2.players "P2" = some p' ∧ p'.score = p.score + 0) :=
  C2_sequential_submits_preserved [demoQ] raceS0 seqS1 seqS2 "P1" "P2" 0 0 100 200
    false false 0 0 (by decide) rfl rfl

end Vibehoot
